import Mathlib

/-!
Verification of the node-based shader-graph compiler core: the node graph
data model, the three-stage build protocol (setup / analyze / generate),
node identity and cache-key computation, cross-node sharing and
deduplication, and the operator / math / varying leaf protocols.

The definitions are shallow embeddings of the JavaScript sources:

* `src/src/nodes/core/Node.js` — the `Node` base class and its `build`
  state machine;
* `src/src/nodes/core/VaryingNode.js` — `VaryingNode`;
* `src/src/nodes/core/PropertyNode.js` — `PropertyNode`;
* `src/src/nodes/math/MathNode.js` — `MathNode`;
* the `OperatorNode` class (constructor and `getNodeType`).

The `NodeBuilder` collaborator (property storage, the shared-node registry,
type tables, formatting) is not part of the sources; those narrow
operations are modelled from the specification and are marked as such.
-/

namespace ThreeShader

/-- JavaScript truthiness of an optional string: `null` and the empty
string are falsy, every other string is truthy. -/
def jsTruthy : Option String → Bool
  | none => false
  | some s => s ≠ ""

/-- JavaScript `a || b` on optional strings: returns `a` when truthy,
otherwise `b`. -/
def jsOr (a : Option String) (b : String) : String :=
  match a with
  | some s => if s ≠ "" then s else b
  | none => b

/-! ## Backend type utilities

Modelled from the spec: the concrete backend code generators and the
`NodeBuilder` type tables are external collaborators; the spec describes
them as component-count and component-type utilities over GLSL-style type
names. -/

/-- Modelled from the spec: `builder.getTypeLength` — the number of
components of a type (`float` 1, `vec3` 3, `mat3` 9, unknown 0). -/
def getTypeLength : String → Nat
  | "float" => 1
  | "int" => 1
  | "uint" => 1
  | "bool" => 1
  | "vec2" => 2
  | "ivec2" => 2
  | "uvec2" => 2
  | "bvec2" => 2
  | "vec3" => 3
  | "ivec3" => 3
  | "uvec3" => 3
  | "bvec3" => 3
  | "vec4" => 4
  | "ivec4" => 4
  | "uvec4" => 4
  | "bvec4" => 4
  | "mat2" => 4
  | "mat3" => 9
  | "mat4" => 16
  | _ => 0

/-- Modelled from the spec: `builder.isMatrix` — whether a type name is a
matrix type. -/
def isMatrix (t : String) : Bool :=
  t = "mat2" ∨ t = "mat3" ∨ t = "mat4"

/-- Modelled from the spec: `builder.isVector` — whether a type name is a
vector type. -/
def isVector (t : String) : Bool :=
  t = "vec2" ∨ t = "vec3" ∨ t = "vec4" ∨
  t = "ivec2" ∨ t = "ivec3" ∨ t = "ivec4" ∨
  t = "uvec2" ∨ t = "uvec3" ∨ t = "uvec4" ∨
  t = "bvec2" ∨ t = "bvec3" ∨ t = "bvec4"

/-- Modelled from the spec: `builder.getVectorFromMatrix` — the vector
type of a matrix type (`mat3` to `vec3`). -/
def getVectorFromMatrix : String → String
  | "mat2" => "vec2"
  | "mat3" => "vec3"
  | "mat4" => "vec4"
  | t => t

/-- Modelled from the spec: `builder.getComponentType` — the scalar
component type of a type name. -/
def getComponentType : String → String
  | "float" => "float"
  | "vec2" => "float"
  | "vec3" => "float"
  | "vec4" => "float"
  | "int" => "int"
  | "ivec2" => "int"
  | "ivec3" => "int"
  | "ivec4" => "int"
  | "uint" => "uint"
  | "uvec2" => "uint"
  | "uvec3" => "uint"
  | "uvec4" => "uint"
  | "bool" => "bool"
  | "bvec2" => "bool"
  | "bvec3" => "bool"
  | "bvec4" => "bool"
  | t => t

/-- Modelled from the spec: `builder.changeComponentType` — rebuild a type
name with the same component count but a different component type. -/
def changeComponentType (t : String) (c : String) : String :=
  let len := getTypeLength t
  let base : String :=
    match c with
    | "int" => "ivec"
    | "uint" => "uvec"
    | "bool" => "bvec"
    | _ => "vec"
  if len = 2 then base ++ "2"
  else if len = 3 then base ++ "3"
  else if len = 4 then base ++ "4"
  else match c with
    | "int" => "int"
    | "uint" => "uint"
    | "bool" => "bool"
    | _ => "float"

/-- Modelled from the spec: `builder.getIntegerType` — keep integer typed
operands, otherwise change the component type to `int`. -/
def getIntegerType (t : String) : String :=
  let c := getComponentType t
  if c = "int" ∨ c = "uint" then t else changeComponentType t "int"

/-! ## OperatorNode.getNodeType

Shallow embedding of `OperatorNode.getNodeType( builder, output )`.  The
operand types `typeA` / `typeB` stand for `aNode.getNodeType( builder )`
and `bNode.getNodeType( builder )` (`typeB = none` when `bNode` is
undefined, as for the unary operators), and `output` for the requested
output type. -/
def opGetNodeType (op : String) (typeA : String) (typeB : Option String)
    (output : Option String) : String :=
  if typeA = "void" ∨ typeB = some "void" then
    "void"
  else if op = "%" then
    typeA
  else if op = "~" ∨ op = "&" ∨ op = "|" ∨ op = "^" ∨ op = ">>" ∨ op = "<<" then
    getIntegerType typeA
  else if op = "!" ∨ op = "==" ∨ op = "&&" ∨ op = "||" ∨ op = "^^" then
    "bool"
  else if op = "<" ∨ op = ">" ∨ op = "<=" ∨ op = ">=" then
    let typeLength :=
      if jsTruthy output then getTypeLength (output.getD "")
      else max (getTypeLength typeA) (getTypeLength (typeB.getD ""))
    if typeLength > 1 then "bvec" ++ toString typeLength else "bool"
  else
    if typeA = "float" ∧ isMatrix (typeB.getD "") then
      typeB.getD ""
    else if isMatrix typeA ∧ isVector (typeB.getD "") then
      getVectorFromMatrix typeA
    else if isVector typeA ∧ isMatrix (typeB.getD "") then
      getVectorFromMatrix (typeB.getD "")
    else if getTypeLength (typeB.getD "") > getTypeLength typeA then
      typeB.getD ""
    else
      typeA

/-! ## OperatorNode constructor: variadic desugaring

The constructor of `OperatorNode` takes `( op, aNode, bNode, ...params )`.
Only the operator / operand tree shape matters for the desugaring claim, so
operand expressions are embedded as a tree with opaque leaves. -/

/-- The operand tree of operator nodes: a leaf stands for an arbitrary
non-operator input node, `node op a b` for `new OperatorNode( op, a, b )`
with `aNode = a` and `bNode = b`. -/
inductive OpTree where
  | leaf (tag : Nat)
  | node (op : String) (a : OpTree) (b : OpTree)
deriving DecidableEq, Repr

/-- Shallow embedding of the `OperatorNode` constructor: with extra
`params` present, `finalOp` starts as `op( aNode, bNode )`, the loop folds
`params[0] .. params[length-2]` onto it, and the constructed node is
`op( finalOp, params[length-1] )`. -/
def mkOperatorNode (op : String) (aNode bNode : OpTree) (params : List OpTree) : OpTree :=
  if h : params.length > 0 then
    let finalOp := params.dropLast.foldl (fun acc p => OpTree.node op acc p)
      (OpTree.node op aNode bNode)
    OpTree.node op finalOp (params.getLast (by
      intro hnil
      simp [hnil] at h))
  else
    OpTree.node op aNode bNode

/-! ## VaryingNode -/

/-- Shallow embedding of a `VaryingNode` instance as produced by its
constructor: the wrapped node, the optional explicit name, the
interpolation settings and the `global` flag.  The `uuid` field stands for
the unique identifier assigned by the base `Node` constructor. -/
structure VaryingNode where
  node : Nat
  name : Option String
  interpolationType : Option String
  interpolationSampling : Option String
  global : Bool
  uuid : String
deriving DecidableEq, Repr

/-- The `VaryingNode` constructor: stores the wrapped node and the name,
leaves the interpolation settings `null` and sets `global = true`. -/
def mkVaryingNode (node : Nat) (uuid : String) (name : Option String := none) :
    VaryingNode :=
  { node := node, name := name, interpolationType := none,
    interpolationSampling := none, global := true, uuid := uuid }

/-- `VaryingNode.getHash( builder )` is `this.name || super.getHash( builder )`;
the base class hash is the node's uuid. -/
def VaryingNode.getHash (v : VaryingNode) : String :=
  jsOr v.name v.uuid

/-! ## Cache key memoization (Node.getCacheKey) -/

/-- The cache-key relevant mutable state of a `Node` instance: its
`version`, the memoized `_cacheKey` (`none` for the initial `null`), the
`_cacheKeyVersion` recorded at the last computation, and the two inputs of
a recomputation: `childrenKey` stands for `NodeUtils.getCacheKey( this,
force )`, the structural key over the discovered children (modelled from
the spec, `NodeUtils.js` is not among the sources), and `customKey` for
the node's `customCacheKey()` result. -/
structure CacheNode where
  version : Nat
  cacheKeyVersion : Nat
  cacheKey : Option Nat
  childrenKey : Nat
  customKey : Nat := 0
deriving DecidableEq, Repr

/-- Modelled from the spec: `NodeUtils.hash` — fold integers into a single
integer cache key (`NodeUtils.js` is not among the sources). -/
def hashCombine (a b : Nat) : Nat :=
  (a * 31 + b) % 4294967296

/-- The default `Node.customCacheKey()` implementation: `return 0`. -/
def nodeCustomCacheKeyDefault : Nat := 0

/-- Shallow embedding of `Node.getCacheKey( force )`: recompute when
forced, when the version changed since the last computation, or when no
key is memoized yet; otherwise return the stored key.  The third component
records whether the recomputing branch was taken. -/
def getCacheKey (n : CacheNode) (force : Bool := false) : Nat × CacheNode × Bool :=
  let force := force || n.version != n.cacheKeyVersion
  if force = true ∨ n.cacheKey = none then
    let key := hashCombine n.childrenKey n.customKey
    (key, { n with cacheKey := some key, cacheKeyVersion := n.version }, true)
  else
    (n.cacheKey.getD 0, n, false)

/-! ## MathNode.generate

Shallow embedding of `MathNode.getInputType`, `MathNode.getNodeType` and
the `MathNode.generate` code path.  Operand sub-builds are abstracted: an
operand carries its node type and a function from the requested build type
to the generated snippet. -/

/-- The renderer coordinate system (`builder.renderer.coordinateSystem`). -/
inductive CoordSys where
  | webgl
  | webgpu
deriving DecidableEq, Repr

/-- `MathNode.getInputType( builder )`: the operand type with the largest
component count, matrices counting as 0. -/
def mathGetInputType (aType : String) (bType cType : Option String) : String :=
  let aLen := if isMatrix aType then 0 else getTypeLength aType
  let bLen := if isMatrix (bType.getD "") then 0 else getTypeLength (bType.getD "")
  let cLen := if isMatrix (cType.getD "") then 0 else getTypeLength (cType.getD "")
  if aLen > bLen ∧ aLen > cLen then aType
  else if bLen > cLen then bType.getD ""
  else if cLen > aLen then cType.getD ""
  else aType

/-- `MathNode.getNodeType( builder )`: fixed result types for reductions
and comparisons, otherwise the input type. -/
def mathGetNodeType (method : String) (aType : String) (bType cType : Option String) :
    String :=
  if method = "length" ∨ method = "distance" ∨ method = "dot" then "float"
  else if method = "cross" then "vec3"
  else if method = "all" ∨ method = "any" then "bool"
  else if method = "equals" then changeComponentType aType "bool"
  else mathGetInputType aType bType cType

/-- Modelled from the spec: `builder.getMethod` — resolve a method name to
the backend function name; the identity here. -/
def getMethod (method : String) (_type : String) : String :=
  method

/-- Modelled from the spec: `builder.format` — backend type coercion of a
generated snippet to the requested output type; the identity when no
conversion is requested or needed. -/
def formatSnippet (s : String) (t : String) (output : Option String) : String :=
  match output with
  | none => s
  | some o => if o = t ∨ o = "" then s else o ++ "( " ++ s ++ " )"

/-- An operand of a math node during generation: its resolved node type
and its `build` result as a function of the requested type. -/
structure MathOperand where
  type : String
  snippet : String → String

/-- Shallow embedding of `MathNode.generate( builder, output )`.
`outputNodeBuilt` models the `properties.outputNode` early path (the base
class builds the prepared output node; modelled from the spec since
`TempNode.js` is not among the sources).  Returns the generated snippet
and the list of warnings logged. -/
def mathGenerate (cs : CoordSys) (shaderStage : String) (method0 : String)
    (a : MathOperand) (b c : Option MathOperand) (outputNodeBuilt : Option String)
    (output : Option String) : String × List String :=
  match outputNodeBuilt with
  | some s => (s, [])
  | none =>
    let type := mathGetNodeType method0 a.type (b.map (·.type)) (c.map (·.type))
    let inputType := mathGetInputType a.type (b.map (·.type)) (c.map (·.type))
    if method0 = "negate" then
      (formatSnippet ("( - " ++ a.snippet inputType ++ " )") type output, [])
    else
      let step1 : List String × String × List String :=
        if method0 = "cross" then
          ([a.snippet type, (b.map (·.snippet type)).getD ""], method0, [])
        else if cs = CoordSys.webgl ∧ method0 = "step" then
          ([a.snippet (if getTypeLength a.type = 1 then "float" else inputType),
            (b.map (·.snippet inputType)).getD ""], method0, [])
        else if cs = CoordSys.webgl ∧ (method0 = "min" ∨ method0 = "max") then
          ([a.snippet inputType,
            (b.map (fun o => o.snippet
              (if getTypeLength o.type = 1 then "float" else inputType))).getD ""],
           method0, [])
        else if method0 = "refract" then
          ([a.snippet inputType, (b.map (·.snippet inputType)).getD "",
            (c.map (·.snippet "float")).getD ""], method0, [])
        else if method0 = "mix" then
          ([a.snippet inputType, (b.map (·.snippet inputType)).getD "",
            (c.map (fun o => o.snippet
              (if getTypeLength o.type = 1 then "float" else inputType))).getD ""],
           method0, [])
        else
          let m1 := if cs = CoordSys.webgpu ∧ method0 = "atan" ∧ b.isSome
            then "atan2" else method0
          let warned : String × List String :=
            if shaderStage ≠ "fragment" ∧ (m1 = "dFdx" ∨ m1 = "dFdy") then
              ("/*" ++ m1 ++ "*/",
               ["THREE.TSL: " ++ m1 ++ " is not supported in the " ++
                shaderStage ++ " stage."])
            else (m1, [])
          ([a.snippet inputType] ++ (b.map (fun o => [o.snippet inputType])).getD []
            ++ (c.map (fun o => [o.snippet inputType])).getD [],
           warned.1, warned.2)
      let params := step1.1
      let method := step1.2.1
      (formatSnippet (getMethod method type ++ "( " ++
        String.intercalate ", " params ++ " )") type output, step1.2.2)

/-- A concrete cache-key state: version bumped to 1, nothing memoized. -/
def cacheNodeFresh : CacheNode :=
  { version := 1, cacheKeyVersion := 0, cacheKey := none, childrenKey := 5 }

/-- The cache-key state after the first recomputation of `cacheNodeFresh`. -/
def cacheNodeMemo : CacheNode :=
  { version := 1, cacheKeyVersion := 1, cacheKey := some 155, childrenKey := 5 }

/-! ## The node graph build state machine

Shallow embedding of `Node.build( builder, output )` and its three build
stages.  Nodes live in a `Graph` keyed by their process-unique id; the
builder's keyed storage (`getNodeProperties`, `getDataFromNode`, the
shared-node registry, usage counters, chain and sequential lists) is
modelled from the spec, which describes `NodeBuilder` as an external
collaborator with exactly these capabilities.  Handler invocations and
warnings are recorded in an event trace. -/

/-- The three build stages. -/
inductive BuildStage where
  | setup
  | analyze
  | generate
deriving DecidableEq, Repr

/-- The `_parentBuildStage` table: the stage that must be completed before
the given one (`analyze` before `generate`, `setup` before `analyze`). -/
def parentOfBuildStage : BuildStage → Option BuildStage
  | BuildStage.setup => none
  | BuildStage.analyze => some BuildStage.setup
  | BuildStage.generate => some BuildStage.analyze

/-- A numeric rank of the stage chain, used to show the back-fill
recursion strictly descends. -/
def buildStageRank : BuildStage → Nat
  | BuildStage.setup => 0
  | BuildStage.analyze => 1
  | BuildStage.generate => 2

/-- The node kinds of the universe: `base` is a plain `Node` with the
default stage handlers; `prop` is a `PropertyNode( nodeType, name,
varying )`, whose `generate` override takes a single parameter. -/
inductive NodeKind where
  | base
  | prop (name : Option String) (varying : Bool)
deriving DecidableEq, Repr

/-- A node instance: its process-unique id, kind, constructor `nodeType`,
the reflectively discovered child nodes (in field-enumeration order) and
the `parents` flag. -/
structure NodeDef where
  id : Nat
  kind : NodeKind := NodeKind.base
  nodeTypeField : Option String := none
  children : List Nat := []
  parents : Bool := false
deriving DecidableEq, Repr

/-- The uuid assigned at construction, unique per node id. -/
def NodeDef.uuid (n : NodeDef) : String :=
  "uuid-" ++ toString n.id

/-- `Node.getHash( builder )`: the uuid by default; `PropertyNode`
overrides it with `this.name || super.getHash( builder )`. -/
def NodeDef.getHash (n : NodeDef) : String :=
  match n.kind with
  | NodeKind.base => n.uuid
  | NodeKind.prop name _ => jsOr name n.uuid

/-- Whether the node's `generate` function takes exactly one parameter
(`this.generate.length === 1`): false for the base class two-parameter
`generate( builder, output )`, true for `PropertyNode.generate( builder )`. -/
def NodeDef.genArity1 (n : NodeDef) : Bool :=
  match n.kind with
  | NodeKind.base => false
  | NodeKind.prop _ _ => true

/-- A node graph: the set of constructed node instances. -/
structure Graph where
  nodes : List NodeDef
deriving DecidableEq, Repr

/-- Look a node up by id. -/
def Graph.find (g : Graph) (i : Nat) : Option NodeDef :=
  g.nodes.find? (fun n => n.id == i)

/-- Association-list lookup. -/
def alistGet {κ α : Type} [DecidableEq κ] (k : κ) : List (κ × α) → Option α
  | [] => none
  | e :: es => if e.1 = k then some e.2 else alistGet k es

/-- Association-list update: replace in place, or append a new entry (the
JavaScript object key-insertion-order semantics). -/
def alistSet {κ α : Type} [DecidableEq κ] (k : κ) (v : α) : List (κ × α) → List (κ × α)
  | [] => [(k, v)]
  | e :: es => if e.1 = k then (k, v) :: es else e :: alistSet k v es

/-- Trace events: invocations of the per-node stage handlers, the
recursion-detected warning and the flow-code copy. -/
inductive Ev where
  | setupCall (id : Nat)
  | analyzeCall (id : Nat)
  | generateCall (id : Nat)
  | warnRecursion (id : Nat)
  | flowCode (id : Nat)
deriving DecidableEq, Repr

/-- A JavaScript property value as stored in a node-properties record:
null, boolean, a node reference, or an array of node references. -/
inductive PVal where
  | pnull
  | pb (b : Bool)
  | pnode (id : Nat)
  | pnodes (ids : List Nat)
deriving DecidableEq, Repr

/-- A node-properties record: string-keyed entries in insertion order
(`Object.values` enumerates in this order). -/
structure NodeProps where
  entries : List (String × PVal) := []
deriving DecidableEq, Repr

/-- Read a property. -/
def NodeProps.get (p : NodeProps) (k : String) : Option PVal :=
  alistGet k p.entries

/-- Write a property, keeping the JavaScript key-insertion order. -/
def NodeProps.set (p : NodeProps) (k : String) (v : PVal) : NodeProps :=
  ⟨alistSet k v p.entries⟩

/-- The node-valued properties, in enumeration order — the `isNode`
filter of the `Object.values( properties )` loops. -/
def propNodeIds (p : NodeProps) : List Nat :=
  p.entries.filterMap (fun e =>
    match e.2 with
    | PVal.pnode i => some i
    | _ => none)

/-- The `output` argument of `build`: null, a requested output type
string, or a parent node (as passed by the analyze-stage child loop). -/
inductive BOut where
  | null
  | otype (s : String)
  | onode (id : Nat)
deriving DecidableEq, Repr

/-- The result of `build`: a node (setup stage), null, or a generated
string (generate stage). -/
inductive BRes where
  | rnull
  | rnode (id : Nat)
  | rstr (s : String)
deriving DecidableEq, Repr

/-- Coerce a build result to the string `this.generate( .. ) || ''`
expects. -/
def BRes.toStr : BRes → String
  | BRes.rstr s => s
  | _ => ""

/-- Per-(node, builder) bookkeeping, `builder.getDataFromNode( node )`:
the visited build stages, the single-output generation flags and snippet,
the usage counter and the parents-tracking record. -/
structure NodeData where
  buildStages : List BuildStage := []
  generated : Bool := false
  snippet : Option String := none
  usageCount : Nat := 0
  flowCodes : Bool := false
  stages : List (String × List BOut) := []
deriving DecidableEq, Repr

/-- The builder state during one compile: the current build stage and
shader stage, the shared-node registry, the node list, the per-node data
and properties stores, the variable slots, the chain and sequential lists,
the flow-code context flag and the event trace. -/
structure BuilderState where
  buildStage : BuildStage := BuildStage.setup
  shaderStage : String := "fragment"
  hashNodes : List (String × Nat) := []
  bnodes : List Nat := []
  nodesData : List (Nat × NodeData) := []
  propsAll : List (Nat × NodeProps) := []
  vars : List (Nat × String) := []
  chain : List Nat := []
  sequential : List Nat := []
  nodeBlock : Bool := false
  trace : List Ev := []
deriving DecidableEq, Repr

/-- Modelled from the spec: `builder.getDataFromNode( node )` — the
per-node bookkeeping record, a fresh default when absent. -/
def getData (st : BuilderState) (nid : Nat) : NodeData :=
  (alistGet nid st.nodesData).getD {}

/-- Store a node's bookkeeping record. -/
def setData (st : BuilderState) (nid : Nat) (d : NodeData) : BuilderState :=
  { st with nodesData := alistSet nid d st.nodesData }

/-- Modelled from the spec: `builder.getNodeProperties( node )` — the
per-node property record, a fresh default when absent. -/
def getProps (st : BuilderState) (nid : Nat) : NodeProps :=
  (alistGet nid st.propsAll).getD {}

/-- Store a node's property record. -/
def setProps (st : BuilderState) (nid : Nat) (p : NodeProps) : BuilderState :=
  { st with propsAll := alistSet nid p st.propsAll }

/-- Modelled from the spec: `builder.getNodeFromHash( hash )` — the
shared-node registry lookup. -/
def getNodeFromHash (st : BuilderState) (h : String) : Option Nat :=
  alistGet h st.hashNodes

/-- Modelled from the spec: `builder.addNode( node )` — record the node
once and register it in the shared-node registry under its hash; the first
node encountered for a hash stays canonical. -/
def addNode (st : BuilderState) (n : NodeDef) : BuilderState :=
  if st.bnodes.contains n.id then st
  else
    { st with
      bnodes := st.bnodes ++ [n.id],
      hashNodes :=
        if (alistGet n.getHash st.hashNodes).isSome then st.hashNodes
        else st.hashNodes ++ [(n.getHash, n.id)] }

/-- Modelled from the spec: `builder.increaseUsage( node )` — increment
and return the per-node usage counter. -/
def increaseUsage (st : BuilderState) (nid : Nat) : Nat × BuilderState :=
  let d := getData st nid
  let d2 := { d with usageCount := d.usageCount + 1 }
  (d2.usageCount, setData st nid d2)

/-- Record a trace event. -/
def emit (st : BuilderState) (e : Ev) : BuilderState :=
  { st with trace := e :: st.trace }

/-- Whether a build stage is marked in a stage set. -/
def stageDone (s : BuildStage) : List BuildStage → Bool
  | [] => false
  | x :: xs => if x = s then true else stageDone s xs

/-- Mark a build stage as visited in a stage set. -/
def markStage (s : BuildStage) (l : List BuildStage) : List BuildStage :=
  if stageDone s l then l else l ++ [s]

/-- `nodeData.buildStages[ builder.buildStage ] = true`. -/
def markBuildStage (st : BuilderState) (nid : Nat) : BuilderState :=
  let d := getData st nid
  setData st nid { d with buildStages := markStage st.buildStage d.buildStages }

/-- `Node.getNodeType( builder )`: the output node's type when an output
node was prepared, otherwise the constructor node type; fuelled because
output-node chains are graphs. -/
def getNodeTypeF (g : Graph) (fuel : Nat) (st : BuilderState) (nid : Nat) :
    Option (Option String) :=
  match fuel with
  | 0 => none
  | Nat.succ fuel2 =>
    match g.find nid with
    | none => none
    | some n =>
      match (getProps st nid).get "outputNode" with
      | some (PVal.pnode o) => getNodeTypeF g fuel2 st o
      | _ => some n.nodeTypeField

/-- `builder.format` lifted to the build result types (modelled from the
spec, as `formatSnippet`). -/
def formatB (s : String) (ty : Option String) (out : BOut) : String :=
  match out with
  | BOut.otype o => formatSnippet s (ty.getD "") (some o)
  | _ => s

/-- Shallow embedding of `PropertyNode.generate( builder )`: allocate or
fetch the node's named slot and return its property name
(`getVarFromNode` / `getVaryingFromNode` and `getPropertyName` are
modelled from the spec as allocate-or-fetch of a named slot). -/
def propGenerate (st : BuilderState) (nid : Nat) (name : Option String) :
    String × BuilderState :=
  match alistGet nid st.vars with
  | some s => (s, st)
  | none =>
    let s := jsOr name ("nodeVar" ++ toString nid)
    (s, { st with vars := st.vars ++ [(nid, s)] })

/-- The single-parameter `generate` override of a node kind. -/
def genOnceImpl (st : BuilderState) (nid : Nat) (n : NodeDef) :
    String × BuilderState :=
  match n.kind with
  | NodeKind.prop name _ => propGenerate st nid name
  | NodeKind.base => ("", st)

/-- `properties[ 'node' + index ++ ] = childNode` for every discovered
child, in order. -/
def registerChildren (p : NodeProps) (i : Nat) : List Nat → NodeProps
  | [] => p
  | c :: cs => registerChildren (p.set ("node" ++ toString i) (PVal.pnode c)) (i + 1) cs

/-- Shallow embedding of the default `Node.setup( builder )`: register
every discovered child under `node0 .. nodeN` and return
`nodeProperties.outputNode || null`. -/
def defaultSetup (st : BuilderState) (nid : Nat) (n : NodeDef) :
    Option Nat × BuilderState :=
  let props1 := registerChildren (getProps st nid) 0 n.children
  let st1 := setProps st nid props1
  (match props1.get "outputNode" with
   | some (PVal.pnode o) => some o
   | _ => none, st1)

/-- `childProperties.parents.push( this )` of the setup-stage child loop. -/
def pushParent (st : BuilderState) (child parent : Nat) : BuilderState :=
  let p := getProps st child
  let cur :=
    match p.get "parents" with
    | some (PVal.pnodes l) => l
    | _ => []
  setProps st child (p.set "parents" (PVal.pnodes (cur ++ [parent])))

/-- The parents-tracking record of `Node.analyze`:
`nodeData.stages[ builder.shaderStage ].push( output )`. -/
def recordStageOutput (st : BuilderState) (nid : Nat) (out : BOut) : BuilderState :=
  let d := getData st nid
  let cur := (alistGet st.shaderStage d.stages).getD []
  setData st nid { d with stages := alistSet st.shaderStage (cur ++ [out]) d.stages }

/-- The unconditional prefix of `Node.analyze` on top of the handler-call
trace event: the usage increment, and — for a parents-tracking node — the
record of the target output under the current shader stage
(`nodeData.stages[ builder.shaderStage ].push( output )`). -/
def analyzeStep (st : BuilderState) (nid : Nat) (n : NodeDef) (out : BOut) :
    BuilderState :=
  let ret := increaseUsage (emit st (Ev.analyzeCall nid)) nid
  if n.parents then recordStageOutput ret.2 nid out else ret.2

/-- The build result of the setup stage: `properties.outputNode`. -/
def outputRes (p : NodeProps) : BRes :=
  match p.get "outputNode" with
  | some (PVal.pnode o) => BRes.rnode o
  | _ => BRes.rnull

mutual

/-- Shallow embedding of `Node.build( builder, output )`: resolve sharing
and delegate when another node is registered under this node's hash; mark
the current build stage; force the missing parent stage first, restoring
the previous build stage afterwards; then perform the stage work.  Fuelled
to keep the graph recursion total; every call consumes one unit. -/
def build (g : Graph) (fuel : Nat) (nid : Nat) (out : BOut) (st : BuilderState) :
    Option (BRes × BuilderState) :=
  match fuel with
  | 0 => none
  | Nat.succ fuel2 =>
    match g.find nid with
    | none => none
    | some n =>
      let refId := (getNodeFromHash st n.getHash).getD nid
      if refId ≠ nid then build g fuel2 refId out st
      else
        let st1 := markBuildStage st nid
        match parentOfBuildStage st1.buildStage with
        | some ps =>
          if stageDone ps (getData st1 nid).buildStages then
            buildFinish g fuel2 nid n out st1
          else
            match build g fuel2 nid BOut.null { st1 with buildStage := ps } with
            | none => none
            | some (_, st2) =>
              buildFinish g fuel2 nid n out { st2 with buildStage := st1.buildStage }
        | none => buildFinish g fuel2 nid n out st1

termination_by fuel

/-- The part of `Node.build` after sharing resolution and stage back-fill:
`addNode`, chain push, the stage-specific work, chain pop and the
sequential-node record. -/
def buildFinish (g : Graph) (fuel : Nat) (nid : Nat) (n : NodeDef) (out : BOut)
    (st : BuilderState) : Option (BRes × BuilderState) :=
  match fuel with
  | 0 => none
  | Nat.succ fuel2 =>
    let st := addNode st n
    let st := { st with chain := nid :: st.chain }
    let work : Option (BRes × BuilderState) :=
      match st.buildStage with
      | BuildStage.setup =>
        let props := getProps st nid
        if props.get "initialized" = some (PVal.pb true) then
          some (outputRes props, st)
        else
          let sta := setProps st nid (props.set "initialized" (PVal.pb true))
          let stb := emit sta (Ev.setupCall nid)
          let retc := defaultSetup stb nid n
          let props2 := getProps retc.2 nid
          let ov : PVal :=
            match retc.1 with
            | some o => PVal.pnode o
            | none =>
              match props2.get "outputNode" with
              | some (PVal.pnode o) => PVal.pnode o
              | _ => PVal.pnull
          let std := setProps retc.2 nid (props2.set "outputNode" ov)
          match buildChildren g fuel2 nid true (propNodeIds (getProps std nid)) std with
          | none => none
          | some ste => some (outputRes (getProps ste nid), ste)
      | BuildStage.analyze =>
        let sta := emit st (Ev.analyzeCall nid)
        let ret := increaseUsage sta nid
        let stb := if n.parents then recordStageOutput ret.2 nid out else ret.2
        if ret.1 = 1 then
          match buildChildren g fuel2 nid false (propNodeIds (getProps stb nid)) stb with
          | none => none
          | some stc => some (BRes.rnull, stc)
        else
          some (BRes.rnull, stb)
      | BuildStage.generate =>
        if n.genArity1 then
          match getNodeTypeF g fuel2 st nid with
          | none => none
          | some ty =>
            let d := getData st nid
            match d.snippet with
            | some s =>
              let sta := if d.flowCodes ∧ st.nodeBlock then emit st (Ev.flowCode nid)
                else st
              some (BRes.rstr (formatB s ty out), sta)
            | none =>
              if d.generated = false then
                let sta := setData st nid { d with generated := true }
                let stb := emit sta (Ev.generateCall nid)
                let ret := genOnceImpl stb nid n
                let d2 := getData ret.2 nid
                let stc := setData ret.2 nid { d2 with snippet := some ret.1 }
                some (BRes.rstr (formatB ret.1 ty out), stc)
              else
                let sta := emit st (Ev.warnRecursion nid)
                some (BRes.rstr (formatB "/* Recursion detected. */" ty out), sta)
        else
          let sta := emit st (Ev.generateCall nid)
          match (getProps sta nid).get "outputNode" with
          | some (PVal.pnode o) =>
            match build g fuel2 o out sta with
            | none => none
            | some (r, st2) => some (BRes.rstr r.toStr, st2)
          | _ => some (BRes.rstr "", sta)
    match work with
    | none => none
    | some (r, st2) =>
      some (r, { st2 with chain := st2.chain.tail, sequential := st2.sequential ++ [nid] })

termination_by fuel

/-- The child-build loops of the setup and analyze stages: in the setup
stage each parents-tracking child records the caller first and children
are built with a null output; in the analyze stage children are built with
the parent node as output. -/
def buildChildren (g : Graph) : Nat → Nat → Bool → List Nat → BuilderState →
    Option BuilderState
  | 0, _, _, _, _ => none
  | Nat.succ _, _, _, [], st => some st
  | Nat.succ fuel2, parent, isSetupStage, c :: rest, st =>
    let st1 :=
      if isSetupStage then
        match g.find c with
        | some cn => if cn.parents then pushParent st c parent else st
        | none => st
      else st
    match build g fuel2 c (if isSetupStage then BOut.null else BOut.onode parent) st1 with
    | none => none
    | some (_, st2) => buildChildren g fuel2 parent isSetupStage rest st2
termination_by fuel _ _ _ _ => fuel

end

/-! ## Concrete witness inputs for the build theorems -/

/-- A concrete property node used by the witnesses. -/
def nW : NodeDef :=
  { id := 0, kind := NodeKind.prop (some "P") false, nodeTypeField := some "float" }

/-- A one-node graph used by the witnesses. -/
def gW : Graph := ⟨[nW]⟩

/-- A fresh builder in the generate stage. -/
def stGen : BuilderState := { buildStage := BuildStage.generate }

/-- A builder in the generate stage with the analyze stage already marked
for node 0. -/
def stGenA : BuilderState :=
  { buildStage := BuildStage.generate,
    nodesData := [(0, { buildStages := [BuildStage.setup, BuildStage.analyze] })] }

/-- A builder in the setup stage where node 0 is already initialized with
a stored output node. -/
def stInit : BuilderState :=
  { buildStage := BuildStage.setup,
    propsAll := [(0, ⟨[("initialized", PVal.pb true), ("outputNode", PVal.pnode 3)]⟩)] }

/-- Bookkeeping of a node that finished the earlier stages and memoized
the snippet `"P"`. -/
def dMemo : NodeData :=
  { buildStages := [BuildStage.setup, BuildStage.analyze], generated := true,
    snippet := some "P" }

/-- A builder in the generate stage where node 0 carries `dMemo`. -/
def stMemo : BuilderState :=
  { buildStage := BuildStage.generate, nodesData := [(0, dMemo)] }

/-- A parents-tracking node used by the analyze witness. -/
def nP : NodeDef := { id := 0, parents := true }

/-- A one-node graph holding the parents-tracking node. -/
def gP : Graph := ⟨[nP]⟩

/-- Bookkeeping of a node that finished setup and was already analyzed
once. -/
def dAna : NodeData := { buildStages := [BuildStage.setup], usageCount := 1 }

/-- A builder in the analyze stage where node 0 carries `dAna`. -/
def stAna : BuilderState :=
  { buildStage := BuildStage.analyze, nodesData := [(0, dAna)] }

/-! ## Handler-event traces and registry monotonicity

Infrastructure for the sharing/delegation claim: a node whose hash is
registered to a different node never has its own stage handlers invoked.
`handlerEvents x tr` collects the setup/analyze/generate handler
invocations of node `x` in a trace. -/

/-- Whether a trace event is a stage-handler invocation of node `x`. -/
def isHandlerFor (x : Nat) : Ev → Bool
  | Ev.setupCall i => i == x
  | Ev.analyzeCall i => i == x
  | Ev.generateCall i => i == x
  | _ => false

/-- The stage-handler invocations of node `x` in a trace. -/
def handlerEvents (x : Nat) (tr : List Ev) : List Ev :=
  tr.filter (isHandlerFor x)

/-- Registry entries are never removed or overwritten. -/
def RegistryLe (st st2 : BuilderState) : Prop :=
  ∀ k v, getNodeFromHash st k = some v → getNodeFromHash st2 k = some v

/-- Node `x` is shadowed in the registry: its hash is mapped to a
different node. -/
def Shadowed (g : Graph) (st : BuilderState) (x : Nat) : Prop :=
  ∃ xn m, g.find x = some xn ∧ getNodeFromHash st xn.getHash = some m ∧ m ≠ x

/-- Invariant of a `build` call: the registry grows monotonically and no
shadowed node gains handler events. -/
def BuildInv (g : Graph) (st st2 : BuilderState) : Prop :=
  RegistryLe st st2 ∧
  ∀ x, Shadowed g st x → handlerEvents x st2.trace = handlerEvents x st.trace

/-- Invariant of a `buildFinish` call: as `BuildInv`, except the node
being finished may gain its own handler events. -/
def FinishInv (g : Graph) (nid : Nat) (st st2 : BuilderState) : Prop :=
  RegistryLe st st2 ∧
  ∀ x, x ≠ nid → Shadowed g st x →
    handlerEvents x st2.trace = handlerEvents x st.trace

/-- Two property nodes sharing the explicit name `"h"`, node 1 already
registered as the canonical one. -/
def nD0 : NodeDef := { id := 0, kind := NodeKind.prop (some "h") false }

/-- The canonical node registered under hash `"h"`. -/
def nD1 : NodeDef :=
  { id := 1, kind := NodeKind.prop (some "h") false, nodeTypeField := some "float" }

/-- The two-node graph for the delegation witness. -/
def gD : Graph := ⟨[nD0, nD1]⟩

/-- A generate-stage builder whose registry maps `"h"` to node 1. -/
def stD : BuilderState :=
  { buildStage := BuildStage.generate, hashNodes := [("h", 1)] }

/-! ## Theorems: cache key (C4) -/

/-- C4: `getCacheKey(force)` is memoized: the recomputing branch is taken
exactly when `force` is set, the version changed since the last
computation, or no key exists yet; a recomputation combines the structural
children key with `customCacheKey()` (default 0); otherwise the stored key
is returned with the node state unchanged, and an immediately repeated
call returns the same stored value without recomputation. -/
theorem getCacheKey_spec (n : CacheNode) (force : Bool) (k : Nat) (n2 : CacheNode)
    (r : Bool) (h : getCacheKey n force = (k, n2, r)) :
    (r = true ↔ (force = true ∨ n.version ≠ n.cacheKeyVersion ∨ n.cacheKey = none)) ∧
    (r = true → k = hashCombine n.childrenKey n.customKey ∧
      n2.cacheKey = some k ∧ n2.cacheKeyVersion = n.version) ∧
    (r = false → n2 = n ∧ n.cacheKey = some k) ∧
    getCacheKey n2 false = (k, n2, false) ∧
    nodeCustomCacheKeyDefault = 0 := by
  unfold getCacheKey at h ⊢
  by_cases hf : (force || n.version != n.cacheKeyVersion) = true
  · rw [if_pos (Or.inl hf)] at h
    simp only [Prod.mk.injEq] at h
    obtain ⟨hk, hn2, hr⟩ := h
    subst hk hr hn2
    rcases Bool.or_eq_true _ _ |>.mp hf with hf1 | hf2
    · refine ⟨by simp [hf1], fun _ => by simp, by simp, ?_, rfl⟩
      simp [bne]
    · have hne : n.version ≠ n.cacheKeyVersion := bne_iff_ne.mp hf2
      refine ⟨by simp [hne], fun _ => by simp, by simp, ?_, rfl⟩
      simp [bne]
  · have hforce : force = false := by
      cases force <;> simp_all
    have hver : n.version = n.cacheKeyVersion := by
      by_contra hne
      exact hf (by simp [hforce, bne_iff_ne, hne])
    by_cases hck : n.cacheKey = none
    · rw [if_pos (Or.inr hck)] at h
      simp only [Prod.mk.injEq] at h
      obtain ⟨hk, hn2, hr⟩ := h
      subst hk hr hn2
      refine ⟨by simp [hck], fun _ => by simp, by simp, ?_, rfl⟩
      simp [bne]
    · rw [if_neg (by simp [hf, hck])] at h
      simp only [Prod.mk.injEq] at h
      obtain ⟨hk, hn2, hr⟩ := h
      subst hn2 hr
      obtain ⟨v, hv⟩ := Option.ne_none_iff_exists'.mp hck
      refine ⟨by simp [hforce, hver, hck], by simp, fun _ => ⟨rfl, ?_⟩, ?_, rfl⟩
      · rw [hv] at hk ⊢
        simp at hk
        simp [hk]
      · rw [if_neg (by simp [hforce, hver, hck, bne])]
        simp [hv, ← hk]

/-- C4 witness: a node with version 1 computed at version 0 recomputes,
stores the combined key 155 and a repeated call is memoized. -/
theorem getCacheKey_spec_witness :
    getCacheKey cacheNodeFresh false = (155, cacheNodeMemo, true) ∧
    (true = true ↔ (false = true ∨ (1 : Nat) ≠ 0 ∨ (none : Option Nat) = none)) ∧
    getCacheKey cacheNodeMemo false = (155, cacheNodeMemo, false) := by
  have h : getCacheKey cacheNodeFresh false = (155, cacheNodeMemo, true) := by decide
  have hs := getCacheKey_spec cacheNodeFresh false 155 cacheNodeMemo true h
  exact ⟨h, by simp, hs.2.2.2.1⟩

/-! ## Theorems: operator type promotion (C6) -/

/-- C6: `OperatorNode.getNodeType` promotion rules: comparisons yield
`bool` for scalars and a boolean vector of the requested-output or operand
width otherwise; bitwise operators yield the integer type of the first
operand; the logical/equality branch yields `bool`; arithmetic promotes to
the operand with the larger component count, matrix-times-vector yielding
the matrix's vector type; and the four concrete instances of the claim. -/
theorem opGetNodeType_promotion :
    (∀ op tA tB, (op = "<" ∨ op = ">" ∨ op = "<=" ∨ op = ">=") →
      tA ≠ "void" → tB ≠ "void" →
      getTypeLength tA = 1 → getTypeLength tB = 1 →
      opGetNodeType op tA (some tB) none = "bool") ∧
    (∀ op tA tB o k, (op = "<" ∨ op = ">" ∨ op = "<=" ∨ op = ">=") →
      tA ≠ "void" → tB ≠ "void" → o ≠ "" → getTypeLength o = k → 1 < k →
      opGetNodeType op tA (some tB) (some o) = "bvec" ++ toString k) ∧
    (∀ op tA tB k, (op = "<" ∨ op = ">" ∨ op = "<=" ∨ op = ">=") →
      tA ≠ "void" → tB ≠ "void" →
      max (getTypeLength tA) (getTypeLength tB) = k → 1 < k →
      opGetNodeType op tA (some tB) none = "bvec" ++ toString k) ∧
    (∀ op tA tB out, (op = "~" ∨ op = "&" ∨ op = "|" ∨ op = "^" ∨
        op = ">>" ∨ op = "<<") →
      tA ≠ "void" → tB ≠ some "void" →
      opGetNodeType op tA tB out = getIntegerType tA) ∧
    (∀ op tA tB out, (op = "!" ∨ op = "==" ∨ op = "&&" ∨ op = "||" ∨ op = "^^") →
      tA ≠ "void" → tB ≠ some "void" →
      opGetNodeType op tA tB out = "bool") ∧
    (∀ op tA tB out, (op = "+" ∨ op = "-" ∨ op = "*" ∨ op = "/") →
      tA ≠ "void" → tB ≠ "void" → isMatrix tA → isVector tB →
      opGetNodeType op tA (some tB) out = getVectorFromMatrix tA) ∧
    (∀ op tA tB out, (op = "+" ∨ op = "-" ∨ op = "*" ∨ op = "/") →
      tA ≠ "void" → tB ≠ "void" → ¬ isMatrix tA → ¬ isMatrix tB →
      opGetNodeType op tA (some tB) out =
        if getTypeLength tB > getTypeLength tA then tB else tA) ∧
    opGetNodeType "+" "vec3" (some "float") none = "vec3" ∧
    opGetNodeType "<" "vec4" (some "vec4") (some "vec4") = "bvec4" ∧
    opGetNodeType "&" "int" (some "int") none = "int" ∧
    opGetNodeType "&&" "bool" (some "bool") none = "bool" := by
  refine ⟨?_, ?_, ?_, ?_, ?_, ?_, ?_, by decide, by decide, by decide, by decide⟩
  · intro op tA tB hop hA hB hlA hlB
    rcases hop with h | h | h | h <;> subst h <;>
      simp [opGetNodeType, hA, hB, jsTruthy, hlA, hlB]
  · intro op tA tB o k hop hA hB ho hk hk1
    rcases hop with h | h | h | h <;> subst h <;>
      simp [opGetNodeType, hA, hB, jsTruthy, ho, hk, hk1]
  · intro op tA tB k hop hA hB hk hk1
    rcases hop with h | h | h | h <;> subst h <;>
      simp [opGetNodeType, hA, hB, jsTruthy, hk, hk1]
  · intro op tA tB out hop hA hB
    rcases hop with h | h | h | h | h | h <;> subst h <;>
      simp [opGetNodeType, hA, hB]
  · intro op tA tB out hop hA hB
    rcases hop with h | h | h | h | h <;> subst h <;>
      simp [opGetNodeType, hA, hB]
  · intro op tA tB out hop hA hB hmA hvB
    simp only [isMatrix, decide_eq_true_eq] at hmA
    simp only [isVector, decide_eq_true_eq] at hvB
    rcases hop with h | h | h | h <;> subst h <;>
      rcases hmA with h2 | h2 | h2 <;> subst h2 <;>
      rcases hvB with h3 | h3 | h3 | h3 | h3 | h3 | h3 | h3 | h3 | h3 | h3 | h3 <;>
      subst h3 <;> simp [opGetNodeType, getVectorFromMatrix, isMatrix, isVector]
  · intro op tA tB out hop hA hB hmA hmB
    rcases hop with h | h | h | h <;> subst h <;>
      simp [opGetNodeType, hA, hB, hmA, hmB]

/-- C6 witness: the comparison rule applied at `lessThan(vec2, vec2)` with
no requested output and both concrete promotion corners. -/
theorem opGetNodeType_promotion_witness :
    opGetNodeType "<" "float" (some "float") none = "bool" ∧
    opGetNodeType ">" "vec3" (some "vec3") none = "bvec3" ∧
    opGetNodeType "|" "vec2" (some "vec2") none = "ivec2" := by
  refine ⟨?_, ?_, ?_⟩
  · exact opGetNodeType_promotion.1 "<" "float" "float" (Or.inl rfl)
      (by decide) (by decide) (by decide) (by decide)
  · exact (opGetNodeType_promotion.2.2.1 ">" "vec3" "vec3" 3
      (Or.inr (Or.inl rfl)) (by decide) (by decide) (by decide) (by decide)).trans
      (by decide)
  · exact (opGetNodeType_promotion.2.2.2.1 "|" "vec2" (some "vec2") none
      (Or.inr (Or.inr (Or.inl rfl))) (by decide) (by decide)).trans (by decide)

/-! ## Theorems: variadic operator desugaring (C8) -/

/-- C8: constructing an operator node with extra operands desugars into a
left-associative binary chain of the same operator: the result is the left
fold of `node op` over the extra parameters starting from `op(a, b)`, and
appending one more parameter `p` wraps the previous chain as `aNode` with
`p` as `bNode`. -/
theorem operatorNode_variadic_desugar (op : String) (a b : OpTree) :
    (∀ ps : List OpTree,
      mkOperatorNode op a b ps =
        ps.foldl (fun x y => OpTree.node op x y) (OpTree.node op a b)) ∧
    (∀ (ps : List OpTree) (p : OpTree),
      mkOperatorNode op a b (ps ++ [p]) =
        OpTree.node op (mkOperatorNode op a b ps) p) := by
  have hfold : ∀ ps : List OpTree,
      mkOperatorNode op a b ps =
        ps.foldl (fun x y => OpTree.node op x y) (OpTree.node op a b) := by
    intro ps
    match ps with
    | [] => simp [mkOperatorNode]
    | p :: ps' =>
      have hne : p :: ps' ≠ ([] : List OpTree) := by simp
      rw [mkOperatorNode, dif_pos (by simp)]
      conv_rhs => rw [← List.dropLast_append_getLast hne]
      rw [List.foldl_append]
      simp
  refine ⟨hfold, fun ps p => ?_⟩
  rw [hfold (ps ++ [p]), hfold ps, List.foldl_append]
  simp

/-! ## Theorems: varying node hash and global flag (C7) -/

/-- C7 counterexample: a varying node constructed with the explicit name
`""` has a non-null name, yet `getHash` does not return that name — the
JavaScript expression `this.name || super.getHash( builder )` treats the
empty string as falsy and falls back to the uuid. -/
theorem varyingNode_empty_name_cex :
    (mkVaryingNode 0 "uuid-0" (some "")).name ≠ none ∧
    VaryingNode.getHash (mkVaryingNode 0 "uuid-0" (some "")) ≠ "" := by
  decide

/-- C7 (amended): every varying node is constructed with `global = true`;
`getHash` returns the explicit name whenever it is non-null and non-empty,
and falls back to the node's uuid when the name is null or empty. -/
theorem varyingNode_global_and_hash (node : Nat) (uuid : String)
    (name : Option String) :
    (mkVaryingNode node uuid name).global = true ∧
    (∀ s, name = some s → s ≠ "" →
      VaryingNode.getHash (mkVaryingNode node uuid name) = s) ∧
    ((name = none ∨ name = some "") →
      VaryingNode.getHash (mkVaryingNode node uuid name) = uuid) := by
  refine ⟨rfl, ?_, ?_⟩
  · intro s hs hns
    subst hs
    simp [VaryingNode.getHash, mkVaryingNode, jsOr, hns]
  · rintro (h | h) <;> subst h <;> simp [VaryingNode.getHash, mkVaryingNode, jsOr]

/-- C7 witness: concrete instances of the amended hash behavior. -/
theorem varyingNode_global_and_hash_witness :
    (mkVaryingNode 1 "uuid-1" (some "vUv")).global = true ∧
    VaryingNode.getHash (mkVaryingNode 1 "uuid-1" (some "vUv")) = "vUv" ∧
    VaryingNode.getHash (mkVaryingNode 2 "uuid-2" none) = "uuid-2" := by
  refine ⟨(varyingNode_global_and_hash 1 "uuid-1" (some "vUv")).1, ?_, ?_⟩
  · exact (varyingNode_global_and_hash 1 "uuid-1" (some "vUv")).2.1 "vUv" rfl
      (by decide)
  · exact (varyingNode_global_and_hash 2 "uuid-2" none).2.2 (Or.inl rfl)

/-! ## Theorems: derivative methods outside the fragment stage (C9) -/

/-- C9: generating a `dFdx` / `dFdy` math node while the shader stage is
not `fragment` does not abort: exactly one warning is logged and the
emitted call uses the method name wrapped as a comment token in place of
the method, the result still being a formatted snippet string. -/
theorem mathNode_derivative_warning (cs : CoordSys) (shaderStage method : String)
    (a : MathOperand) (output : Option String)
    (hs : shaderStage ≠ "fragment") (hm : method = "dFdx" ∨ method = "dFdy") :
    mathGenerate cs shaderStage method a none none none output =
      (formatSnippet ("/*" ++ method ++ "*/" ++ "( " ++
          a.snippet (mathGetInputType a.type none none) ++ " )")
        (mathGetNodeType method a.type none none) output,
       ["THREE.TSL: " ++ method ++ " is not supported in the " ++
        shaderStage ++ " stage."]) := by
  have hone : ∀ x : String, String.intercalate ", " [x] = x := fun x => rfl
  rcases hm with h | h <;> subst h <;>
    cases cs <;>
    simp [mathGenerate, hs, getMethod, hone]

/-- C9 witness: `dFdx(float)` generated in the vertex stage yields the
commented call and the warning. -/
theorem mathNode_derivative_warning_witness :
    mathGenerate CoordSys.webgl "vertex" "dFdx"
      { type := "float", snippet := fun _ => "x" } none none none none =
      ("/*dFdx*/( x )",
       ["THREE.TSL: dFdx is not supported in the vertex stage."]) := by
  exact (mathNode_derivative_warning CoordSys.webgl "vertex" "dFdx"
    { type := "float", snippet := fun _ => "x" } none (by decide)
    (Or.inl rfl)).trans (by rfl)

/-! ## Basic lemmas about the builder primitives -/

theorem alistGet_set_self {κ α : Type} [DecidableEq κ] (k : κ) (v : α)
    (l : List (κ × α)) : alistGet k (alistSet k v l) = some v := by
  induction l with
  | nil => simp [alistGet, alistSet]
  | cons e es ih =>
    by_cases h : e.1 = k
    · simp [alistGet, alistSet, h]
    · simp [alistGet, alistSet, h, ih]

theorem alistGet_set_ne {κ α : Type} [DecidableEq κ] (k k2 : κ) (v : α)
    (l : List (κ × α)) (h : k ≠ k2) :
    alistGet k (alistSet k2 v l) = alistGet k l := by
  induction l with
  | nil => simp [alistGet, alistSet, Ne.symm h]
  | cons e es ih =>
    by_cases h2 : e.1 = k2
    · simp [alistGet, alistSet, h2, Ne.symm h]
    · simp only [alistSet, if_neg h2]
      by_cases h3 : e.1 = k
      · simp [alistGet, h3]
      · simp [alistGet, h3, ih]

theorem alistGet_append_of_isSome {κ α : Type} [DecidableEq κ] (k : κ)
    (l l2 : List (κ × α)) (h : (alistGet k l).isSome) :
    alistGet k (l ++ l2) = alistGet k l := by
  induction l with
  | nil => simp [alistGet] at h
  | cons e es ih =>
    by_cases h2 : e.1 = k
    · simp [alistGet, h2]
    · simp only [alistGet, if_neg h2] at h ⊢
      exact ih h

theorem getData_setData_self (st : BuilderState) (nid : Nat) (d : NodeData) :
    getData (setData st nid d) nid = d := by
  simp [getData, setData, alistGet_set_self]

theorem getData_setData_ne (st : BuilderState) (nid nid2 : Nat) (d : NodeData)
    (h : nid ≠ nid2) : getData (setData st nid2 d) nid = getData st nid := by
  simp [getData, setData, alistGet_set_ne _ _ _ _ h]

theorem getProps_setProps_self (st : BuilderState) (nid : Nat) (p : NodeProps) :
    getProps (setProps st nid p) nid = p := by
  simp [getProps, setProps, alistGet_set_self]

theorem getProps_setData (st : BuilderState) (nid nid2 : Nat) (d : NodeData) :
    getProps (setData st nid2 d) nid = getProps st nid := rfl

theorem getData_setProps (st : BuilderState) (nid nid2 : Nat) (p : NodeProps) :
    getData (setProps st nid2 p) nid = getData st nid := rfl

theorem stageDone_append (s : BuildStage) (l l2 : List BuildStage) :
    stageDone s (l ++ l2) = (stageDone s l || stageDone s l2) := by
  induction l with
  | nil => simp [stageDone]
  | cons x xs ih =>
    by_cases h : x = s
    · simp [stageDone, h]
    · simp [stageDone, h, ih]

theorem stageDone_markStage_self (s : BuildStage) (l : List BuildStage) :
    stageDone s (markStage s l) = true := by
  by_cases h : stageDone s l
  · simp [markStage, h]
  · simp [markStage, h, stageDone_append, stageDone]

theorem stageDone_markStage_ne (s s2 : BuildStage) (l : List BuildStage)
    (h : s ≠ s2) : stageDone s (markStage s2 l) = stageDone s l := by
  by_cases h2 : stageDone s2 l
  · simp [markStage, h2]
  · simp [markStage, h2, stageDone_append, stageDone, Ne.symm h]

theorem getData_markBuildStage_self (st : BuilderState) (nid : Nat) :
    getData (markBuildStage st nid) nid =
      { getData st nid with
        buildStages := markStage st.buildStage (getData st nid).buildStages } := by
  simp [markBuildStage, getData_setData_self]

theorem markBuildStage_buildStage (st : BuilderState) (nid : Nat) :
    (markBuildStage st nid).buildStage = st.buildStage := rfl

theorem markBuildStage_trace (st : BuilderState) (nid : Nat) :
    (markBuildStage st nid).trace = st.trace := rfl

theorem markBuildStage_hashNodes (st : BuilderState) (nid : Nat) :
    (markBuildStage st nid).hashNodes = st.hashNodes := rfl

theorem markBuildStage_propsAll (st : BuilderState) (nid : Nat) :
    (markBuildStage st nid).propsAll = st.propsAll := rfl

theorem addNode_buildStage (st : BuilderState) (n : NodeDef) :
    (addNode st n).buildStage = st.buildStage := by
  unfold addNode
  split
  · rfl
  · rfl

theorem addNode_trace (st : BuilderState) (n : NodeDef) :
    (addNode st n).trace = st.trace := by
  unfold addNode
  split
  · rfl
  · rfl

theorem addNode_nodesData (st : BuilderState) (n : NodeDef) :
    (addNode st n).nodesData = st.nodesData := by
  unfold addNode
  split
  · rfl
  · rfl

theorem addNode_propsAll (st : BuilderState) (n : NodeDef) :
    (addNode st n).propsAll = st.propsAll := by
  unfold addNode
  split
  · rfl
  · rfl

theorem addNode_chain (st : BuilderState) (n : NodeDef) :
    (addNode st n).chain = st.chain := by
  unfold addNode
  split
  · rfl
  · rfl

theorem addNode_sequential (st : BuilderState) (n : NodeDef) :
    (addNode st n).sequential = st.sequential := by
  unfold addNode
  split
  · rfl
  · rfl

theorem addNode_vars (st : BuilderState) (n : NodeDef) :
    (addNode st n).vars = st.vars := by
  unfold addNode
  split
  · rfl
  · rfl

theorem addNode_nodeBlock (st : BuilderState) (n : NodeDef) :
    (addNode st n).nodeBlock = st.nodeBlock := by
  unfold addNode
  split
  · rfl
  · rfl

theorem addNode_shaderStage (st : BuilderState) (n : NodeDef) :
    (addNode st n).shaderStage = st.shaderStage := by
  unfold addNode
  split
  · rfl
  · rfl

theorem getData_addNode (st : BuilderState) (n : NodeDef) (nid : Nat) :
    getData (addNode st n) nid = getData st nid := by
  simp [getData, addNode_nodesData]

theorem getProps_addNode (st : BuilderState) (n : NodeDef) (nid : Nat) :
    getProps (addNode st n) nid = getProps st nid := by
  simp [getProps, addNode_propsAll]

theorem getNodeFromHash_addNode_of_some (st : BuilderState) (n : NodeDef)
    (k : String) (v : Nat) (h : getNodeFromHash st k = some v) :
    getNodeFromHash (addNode st n) k = some v := by
  unfold getNodeFromHash at h ⊢
  by_cases hb : n.id ∈ st.bnodes
  · simp [addNode, hb, h]
  · by_cases hs : (alistGet n.getHash st.hashNodes).isSome
    · simp [addNode, hb, hs, h]
    · have hbc : st.bnodes.contains n.id = false := by simpa using hb
      rw [addNode]
      simp only [hbc, Bool.false_eq_true, if_false]
      show alistGet k (if (alistGet n.getHash st.hashNodes).isSome = true then st.hashNodes
        else st.hashNodes ++ [(n.getHash, n.id)]) = some v
      rw [if_neg hs]
      rw [alistGet_append_of_isSome k _ _ (by simp [h])]
      exact h

/-- The state after `getNodeTypeF` depends only on the property store. -/
theorem getNodeTypeF_congr (g : Graph) (fuel : Nat) (st st2 : BuilderState)
    (h : st.propsAll = st2.propsAll) (nid : Nat) :
    getNodeTypeF g fuel st nid = getNodeTypeF g fuel st2 nid := by
  induction fuel generalizing nid with
  | zero => rfl
  | succ f ih =>
    unfold getNodeTypeF
    have hp : getProps st nid = getProps st2 nid := by simp [getProps, h]
    rw [hp]
    cases g.find nid with
    | none => rfl
    | some n =>
      cases hv : (getProps st2 nid).get "outputNode" with
      | none => rfl
      | some v => cases v <;> simp [ih]

/-! ## Unfolding lemmas for the build entry point -/

theorem build_backfill_gen (g : Graph) (fuel nid : Nat) (n : NodeDef) (out : BOut)
    (st : BuilderState)
    (hfind : g.find nid = some n)
    (hself : getNodeFromHash st n.getHash = none ∨
      getNodeFromHash st n.getHash = some nid)
    (hstage : st.buildStage = BuildStage.generate)
    (hmiss : stageDone BuildStage.analyze (getData st nid).buildStages = false) :
    build g (fuel + 1) nid out st =
      match build g fuel nid BOut.null
        { markBuildStage st nid with buildStage := BuildStage.analyze } with
      | none => none
      | some (_, st2) =>
        buildFinish g fuel nid n out { st2 with buildStage := BuildStage.generate } := by
  rw [build]
  simp only [hfind]
  have hre : (getNodeFromHash st n.getHash).getD nid = nid := by
    rcases hself with h | h <;> simp [h]
  rw [hre, if_neg (by simp)]
  simp only [markBuildStage_buildStage, hstage, parentOfBuildStage]
  rw [show stageDone BuildStage.analyze (getData (markBuildStage st nid) nid).buildStages
      = false from by
    rw [getData_markBuildStage_self, hstage]
    show stageDone BuildStage.analyze
      (markStage BuildStage.generate (getData st nid).buildStages) = false
    rw [stageDone_markStage_ne _ _ _ (by simp)]
    exact hmiss]
  simp

theorem build_backfill_ana (g : Graph) (fuel nid : Nat) (n : NodeDef) (out : BOut)
    (st : BuilderState)
    (hfind : g.find nid = some n)
    (hself : getNodeFromHash st n.getHash = none ∨
      getNodeFromHash st n.getHash = some nid)
    (hstage : st.buildStage = BuildStage.analyze)
    (hmiss : stageDone BuildStage.setup (getData st nid).buildStages = false) :
    build g (fuel + 1) nid out st =
      match build g fuel nid BOut.null
        { markBuildStage st nid with buildStage := BuildStage.setup } with
      | none => none
      | some (_, st2) =>
        buildFinish g fuel nid n out { st2 with buildStage := BuildStage.analyze } := by
  rw [build]
  simp only [hfind]
  have hre : (getNodeFromHash st n.getHash).getD nid = nid := by
    rcases hself with h | h <;> simp [h]
  rw [hre, if_neg (by simp)]
  simp only [markBuildStage_buildStage, hstage, parentOfBuildStage]
  rw [show stageDone BuildStage.setup (getData (markBuildStage st nid) nid).buildStages
      = false from by
    rw [getData_markBuildStage_self, hstage]
    show stageDone BuildStage.setup
      (markStage BuildStage.analyze (getData st nid).buildStages) = false
    rw [stageDone_markStage_ne _ _ _ (by simp)]
    exact hmiss]
  simp

theorem build_no_backfill_top (g : Graph) (fuel nid : Nat) (n : NodeDef) (out : BOut)
    (st : BuilderState)
    (hfind : g.find nid = some n)
    (hself : getNodeFromHash st n.getHash = none ∨
      getNodeFromHash st n.getHash = some nid)
    (hnop : parentOfBuildStage st.buildStage = none) :
    build g (fuel + 1) nid out st =
      buildFinish g fuel nid n out (markBuildStage st nid) := by
  rw [build]
  simp only [hfind]
  have hre : (getNodeFromHash st n.getHash).getD nid = nid := by
    rcases hself with h | h <;> simp [h]
  rw [hre, if_neg (by simp)]
  simp only [markBuildStage_buildStage, hnop]

theorem build_no_backfill_done (g : Graph) (fuel nid : Nat) (n : NodeDef) (out : BOut)
    (st : BuilderState) (ps : BuildStage)
    (hfind : g.find nid = some n)
    (hself : getNodeFromHash st n.getHash = none ∨
      getNodeFromHash st n.getHash = some nid)
    (hp : parentOfBuildStage st.buildStage = some ps)
    (hdone : stageDone ps (getData st nid).buildStages = true) :
    build g (fuel + 1) nid out st =
      buildFinish g fuel nid n out (markBuildStage st nid) := by
  rw [build]
  simp only [hfind]
  have hre : (getNodeFromHash st n.getHash).getD nid = nid := by
    rcases hself with h | h <;> simp [h]
  rw [hre, if_neg (by simp)]
  simp only [markBuildStage_buildStage, hp]
  have hps : ps ≠ st.buildStage := by
    intro h
    rw [h] at hp
    cases hs : st.buildStage <;> rw [hs] at hp <;> simp [parentOfBuildStage] at hp
  rw [show stageDone ps (getData (markBuildStage st nid) nid).buildStages = true from by
    rw [getData_markBuildStage_self]
    show stageDone ps (markStage st.buildStage (getData st nid).buildStages) = true
    rw [stageDone_markStage_ne _ _ _ hps]
    exact hdone]
  simp

/-! ## Unfolding lemmas for the stage work -/

theorem buildFinish_setup_inited (g : Graph) (fuel nid : Nat) (n : NodeDef)
    (out : BOut) (st : BuilderState)
    (hstage : st.buildStage = BuildStage.setup)
    (hinit : (getProps st nid).get "initialized" = some (PVal.pb true)) :
    buildFinish g (fuel + 1) nid n out st =
      some (outputRes (getProps st nid),
        { addNode st n with sequential := (addNode st n).sequential ++ [nid] }) := by
  rw [buildFinish]
  simp only [getProps] at hinit
  simp [getProps, addNode_propsAll, addNode_buildStage, hstage, hinit]

theorem buildFinish_analyze_used (g : Graph) (fuel nid : Nat) (n : NodeDef)
    (out : BOut) (st : BuilderState)
    (hstage : st.buildStage = BuildStage.analyze)
    (hu : (getData st nid).usageCount ≠ 0) :
    buildFinish g (fuel + 1) nid n out st =
      some (BRes.rnull,
        { analyzeStep (addNode st n) nid n out with
          sequential :=
            (analyzeStep (addNode st n) nid n out).sequential ++ [nid] }) := by
  rw [buildFinish]
  simp only [getData] at hu
  cases hpar : n.parents with
  | false =>
    simp [analyzeStep, getData, setData, addNode_buildStage, addNode_nodesData,
      hstage, hpar, increaseUsage, emit, hu]
  | true =>
    simp [analyzeStep, recordStageOutput, getData, setData, addNode_buildStage,
      addNode_nodesData, hstage, hpar, increaseUsage, emit, hu]

theorem buildFinish_generate_memo (g : Graph) (fuel nid : Nat) (n : NodeDef)
    (out : BOut) (st : BuilderState) (ty : Option String) (s : String)
    (hstage : st.buildStage = BuildStage.generate)
    (hga : n.genArity1 = true)
    (hty : getNodeTypeF g fuel st nid = some ty)
    (hsnip : (getData st nid).snippet = some s)
    (hflow : (getData st nid).flowCodes = false) :
    buildFinish g (fuel + 1) nid n out st =
      some (BRes.rstr (formatB s ty out),
        { addNode st n with sequential := (addNode st n).sequential ++ [nid] }) := by
  have hcongr : ∀ st2 : BuilderState, st2.propsAll = st.propsAll →
      getNodeTypeF g fuel st2 nid = some ty := fun st2 h =>
    (getNodeTypeF_congr g fuel st2 st h nid).trans hty
  rw [buildFinish]
  simp only [getData] at hsnip hflow
  simp [getData, addNode_buildStage, addNode_nodesData, hstage, hga, hcongr,
    addNode_propsAll, hsnip, hflow]

theorem buildFinish_generate_reentrant (g : Graph) (fuel nid : Nat) (n : NodeDef)
    (out : BOut) (st : BuilderState) (ty : Option String)
    (hstage : st.buildStage = BuildStage.generate)
    (hga : n.genArity1 = true)
    (hty : getNodeTypeF g fuel st nid = some ty)
    (hsnip : (getData st nid).snippet = none)
    (hgen : (getData st nid).generated = true) :
    buildFinish g (fuel + 1) nid n out st =
      some (BRes.rstr (formatB "/* Recursion detected. */" ty out),
        { emit (addNode st n) (Ev.warnRecursion nid) with
          sequential :=
            (emit (addNode st n) (Ev.warnRecursion nid)).sequential ++ [nid] }) := by
  have hcongr : ∀ st2 : BuilderState, st2.propsAll = st.propsAll →
      getNodeTypeF g fuel st2 nid = some ty := fun st2 h =>
    (getNodeTypeF_congr g fuel st2 st h nid).trans hty
  rw [buildFinish]
  simp only [getData] at hsnip hgen
  simp [getData, addNode_buildStage, addNode_nodesData, hstage, hga, hcongr,
    addNode_propsAll, hsnip, hgen, emit]

theorem buildFinish_generate_fresh (g : Graph) (fuel nid : Nat) (n : NodeDef)
    (out : BOut) (st : BuilderState) (ty : Option String) (nm : Option String)
    (vr : Bool)
    (hstage : st.buildStage = BuildStage.generate)
    (hk : n.kind = NodeKind.prop nm vr)
    (hty : getNodeTypeF g fuel st nid = some ty)
    (hsnip : (getData st nid).snippet = none)
    (hgen : (getData st nid).generated = false)
    (hvars : alistGet nid st.vars = none) :
    ∃ st2, buildFinish g (fuel + 1) nid n out st =
      some (BRes.rstr (formatB (jsOr nm ("nodeVar" ++ toString nid)) ty out), st2) ∧
      (getData st2 nid).snippet = some (jsOr nm ("nodeVar" ++ toString nid)) ∧
      (getData st2 nid).generated = true ∧
      st2.trace = Ev.generateCall nid :: st.trace := by
  have hcongr : ∀ st2 : BuilderState, st2.propsAll = st.propsAll →
      getNodeTypeF g fuel st2 nid = some ty := fun st2 h =>
    (getNodeTypeF_congr g fuel st2 st h nid).trans hty
  have hga : n.genArity1 = true := by simp [NodeDef.genArity1, hk]
  rw [buildFinish]
  simp only [getData] at hsnip hgen
  simp [getData, setData, addNode_buildStage, addNode_nodesData, addNode_vars,
    addNode_trace, hstage, hga, hcongr, addNode_propsAll, hsnip, hgen, emit,
    genOnceImpl, hk, propGenerate, hvars, alistGet_set_self]

/-! ## Theorems: strict build-stage ordering (C2) -/

/-- C2: when `build` reaches a non-delegated node in the generate stage
whose per-builder record does not yet mark analyze (respectively, in the
analyze stage with setup unmarked), it first recursively forces the
missing earlier stage through the same entry point with the build stage
switched, and the continuation runs with the previous build stage
restored.  Applying the second conjunct inside the first shows the forced
catch-up itself runs setup before analyze. -/
theorem node_build_backfill_order (g : Graph) (fuel nid : Nat) (n : NodeDef)
    (out : BOut) (st : BuilderState)
    (hfind : g.find nid = some n)
    (hself : getNodeFromHash st n.getHash = none ∨
      getNodeFromHash st n.getHash = some nid) :
    (st.buildStage = BuildStage.generate →
      stageDone BuildStage.analyze (getData st nid).buildStages = false →
      build g (fuel + 1) nid out st =
        match build g fuel nid BOut.null
          { markBuildStage st nid with buildStage := BuildStage.analyze } with
        | none => none
        | some (_, st2) =>
          buildFinish g fuel nid n out { st2 with buildStage := BuildStage.generate }) ∧
    (st.buildStage = BuildStage.analyze →
      stageDone BuildStage.setup (getData st nid).buildStages = false →
      build g (fuel + 1) nid out st =
        match build g fuel nid BOut.null
          { markBuildStage st nid with buildStage := BuildStage.setup } with
        | none => none
        | some (_, st2) =>
          buildFinish g fuel nid n out { st2 with buildStage := BuildStage.analyze }) :=
  ⟨fun h1 h2 => build_backfill_gen g fuel nid n out st hfind hself h1 h2,
   fun h1 h2 => build_backfill_ana g fuel nid n out st hfind hself h1 h2⟩

/-- C2 witness: a generate-stage build of a never-visited node forces the
analyze stage first and restores the generate stage for the remainder. -/
theorem node_build_backfill_order_witness :
    build gW 9 0 BOut.null stGen =
      match build gW 8 0 BOut.null
        { markBuildStage stGen 0 with buildStage := BuildStage.analyze } with
      | none => none
      | some (_, st2) =>
        buildFinish gW 8 0 nW BOut.null { st2 with buildStage := BuildStage.generate } :=
  (node_build_backfill_order gW 8 0 nW BOut.null stGen (by decide)
    (Or.inl (by decide))).1 rfl (by decide)

/-! ## Theorems: stage marking and back-fill termination (C10) -/

/-- C10: `build` marks the current build stage in the per-(node, builder)
record before any catch-up or stage work — the setup stage and any stage
whose parent stage is already marked go straight to the stage work on the
marked state, so a nested re-entrant build in the same stage never
triggers the parent back-fill again; the freshly marked state always has
the current stage visited; and the parent-stage chain strictly descends in
rank, so the catch-up recursion terminates. -/
theorem node_build_marks_stage_first (g : Graph) (fuel nid : Nat) (n : NodeDef)
    (out : BOut) (st : BuilderState)
    (hfind : g.find nid = some n)
    (hself : getNodeFromHash st n.getHash = none ∨
      getNodeFromHash st n.getHash = some nid) :
    (parentOfBuildStage st.buildStage = none →
      build g (fuel + 1) nid out st =
        buildFinish g fuel nid n out (markBuildStage st nid)) ∧
    (∀ ps, parentOfBuildStage st.buildStage = some ps →
      stageDone ps (getData st nid).buildStages = true →
      build g (fuel + 1) nid out st =
        buildFinish g fuel nid n out (markBuildStage st nid)) ∧
    stageDone st.buildStage (getData (markBuildStage st nid) nid).buildStages = true ∧
    (∀ s ps, parentOfBuildStage s = some ps →
      buildStageRank ps < buildStageRank s) := by
  refine ⟨fun h => build_no_backfill_top g fuel nid n out st hfind hself h,
    fun ps h1 h2 => build_no_backfill_done g fuel nid n out st ps hfind hself h1 h2,
    ?_, ?_⟩
  · simp [getData_markBuildStage_self, stageDone_markStage_self]
  · intro s ps h
    cases s <;> simp [parentOfBuildStage] at h <;> rw [← h] <;> decide

/-- C10 witness: with analyze already marked, a generate-stage build goes
straight to the stage work on the marked state. -/
theorem node_build_marks_stage_first_witness :
    build gW 9 0 BOut.null stGenA =
      buildFinish gW 8 0 nW BOut.null (markBuildStage stGenA 0) :=
  (node_build_marks_stage_first gW 8 0 nW BOut.null stGenA (by decide)
    (Or.inl (by decide))).2.1 BuildStage.analyze rfl (by decide)

/-! ## Theorems: per-stage work runs at most once (C5) -/

/-- C5: per (node, builder) the stage work is guarded: a setup-stage build
of a node whose properties already carry `initialized = true` performs no
setup override and no child builds — it just returns the stored
`outputNode` with only the bookkeeping (stage mark, node registration,
sequential record) applied; and an analyze-stage build of a node (whether
or not it tracks its parents) whose usage counter is already positive
invokes the `analyze` handler and performs only its unconditional prefix
— the usage increment and, for a parents-tracking node, the
per-shader-stage output record — with no child-build recursion. -/
theorem node_build_stage_once (g : Graph) (fuel nid : Nat) (n : NodeDef)
    (out : BOut) (st : BuilderState)
    (hfind : g.find nid = some n)
    (hself : getNodeFromHash st n.getHash = none ∨
      getNodeFromHash st n.getHash = some nid) :
    (st.buildStage = BuildStage.setup →
      (getProps st nid).get "initialized" = some (PVal.pb true) →
      build g (fuel + 2) nid out st =
        some (outputRes (getProps st nid),
          { addNode (markBuildStage st nid) n with
            sequential := (addNode (markBuildStage st nid) n).sequential ++ [nid] })) ∧
    (st.buildStage = BuildStage.analyze →
      stageDone BuildStage.setup (getData st nid).buildStages = true →
      (getData st nid).usageCount ≠ 0 →
      build g (fuel + 2) nid out st =
        some (BRes.rnull,
          { analyzeStep (addNode (markBuildStage st nid) n) nid n out with
            sequential :=
              (analyzeStep (addNode (markBuildStage st nid) n) nid n out).sequential
                ++ [nid] })) := by
  refine ⟨fun h1 h2 => ?_, fun h1 h2 h3 => ?_⟩
  · have e1 := build_no_backfill_top g (fuel + 1) nid n out st hfind hself
      (by rw [h1]; rfl)
    have e2 := buildFinish_setup_inited g fuel nid n out (markBuildStage st nid)
      (by rw [markBuildStage_buildStage, h1]) h2
    exact e1.trans e2
  · have e1 := build_no_backfill_done g (fuel + 1) nid n out st BuildStage.setup
      hfind hself (by rw [h1]; rfl) h2
    have e2 := buildFinish_analyze_used g fuel nid n out (markBuildStage st nid)
      (by rw [markBuildStage_buildStage, h1])
      (by rw [getData_markBuildStage_self]; exact h3)
    exact e1.trans e2

/-- C5 witness: a second setup-stage build of an initialized node returns
the stored output node with pure bookkeeping, and a second analyze-stage
build of a parents-tracking node performs only the analyze bookkeeping
(handler call, usage increment, output record) with no child recursion. -/
theorem node_build_stage_once_witness :
    (build gW 9 0 BOut.null stInit =
      some (outputRes (getProps stInit 0),
        { addNode (markBuildStage stInit 0) nW with
          sequential := (addNode (markBuildStage stInit 0) nW).sequential ++ [0] })) ∧
    (build gP 9 0 BOut.null stAna =
      some (BRes.rnull,
        { analyzeStep (addNode (markBuildStage stAna 0) nP) 0 nP BOut.null with
          sequential :=
            (analyzeStep (addNode (markBuildStage stAna 0) nP) 0 nP BOut.null).sequential
              ++ [0] })) :=
  ⟨(node_build_stage_once gW 7 0 nW BOut.null stInit (by decide)
      (Or.inl (by decide))).1 rfl (by decide),
    (node_build_stage_once gP 7 0 nP BOut.null stAna (by decide)
      (Or.inl (by decide))).2 rfl (by decide) (by decide)⟩

/-! ## Theorems: single-output generation memoization and recursion guard (C3) -/

/-- C3: for a node whose `generate` takes exactly one parameter, the first
generate-stage build invokes the override once, stores the produced
snippet in the per-(node, builder) data and returns it formatted; a later
generate-stage build returns the memoized snippet (formatted to the
requested output) without invoking `generate`; and a re-entrant build
while the node's own generation is in progress (`generated` set, no
snippet yet) completes with the warning and the formatted placeholder
`/* Recursion detected. */` instead of recursing. -/
theorem node_build_generate_memoization (g : Graph) (fuel nid : Nat) (n : NodeDef)
    (out : BOut) (st : BuilderState) (ty : Option String)
    (hfind : g.find nid = some n)
    (hself : getNodeFromHash st n.getHash = none ∨
      getNodeFromHash st n.getHash = some nid)
    (hstage : st.buildStage = BuildStage.generate)
    (hana : stageDone BuildStage.analyze (getData st nid).buildStages = true)
    (hty : getNodeTypeF g fuel st nid = some ty) :
    (∀ nm vr, n.kind = NodeKind.prop nm vr →
      (getData st nid).snippet = none →
      (getData st nid).generated = false →
      alistGet nid st.vars = none →
      ∃ st2, build g (fuel + 2) nid out st =
        some (BRes.rstr (formatB (jsOr nm ("nodeVar" ++ toString nid)) ty out), st2) ∧
        (getData st2 nid).snippet = some (jsOr nm ("nodeVar" ++ toString nid)) ∧
        (getData st2 nid).generated = true ∧
        st2.trace = Ev.generateCall nid :: st.trace) ∧
    (∀ s, n.genArity1 = true →
      (getData st nid).snippet = some s →
      (getData st nid).flowCodes = false →
      build g (fuel + 2) nid out st =
        some (BRes.rstr (formatB s ty out),
          { addNode (markBuildStage st nid) n with
            sequential := (addNode (markBuildStage st nid) n).sequential ++ [nid] })) ∧
    (n.genArity1 = true →
      (getData st nid).snippet = none →
      (getData st nid).generated = true →
      build g (fuel + 2) nid out st =
        some (BRes.rstr (formatB "/* Recursion detected. */" ty out),
          { emit (addNode (markBuildStage st nid) n) (Ev.warnRecursion nid) with
            sequential := (emit (addNode (markBuildStage st nid) n)
              (Ev.warnRecursion nid)).sequential ++ [nid] })) := by
  have e1 := build_no_backfill_done g (fuel + 1) nid n out st BuildStage.analyze
    hfind hself (by rw [hstage]; rfl) hana
  have htym : getNodeTypeF g fuel (markBuildStage st nid) nid = some ty :=
    (getNodeTypeF_congr g fuel (markBuildStage st nid) st
      (markBuildStage_propsAll st nid) nid).trans hty
  refine ⟨fun nm vr hk hsnip hgen hvars => ?_, fun s hga hsnip hflow => ?_,
    fun hga hsnip hgen => ?_⟩
  · obtain ⟨st2, hA, hB, hC, hD⟩ := buildFinish_generate_fresh g fuel nid n out
      (markBuildStage st nid) ty nm vr (by rw [markBuildStage_buildStage, hstage]) hk
      htym (by rw [getData_markBuildStage_self]; exact hsnip)
      (by rw [getData_markBuildStage_self]; exact hgen) hvars
    exact ⟨st2, e1.trans hA, hB, hC, hD⟩
  · exact e1.trans (buildFinish_generate_memo g fuel nid n out
      (markBuildStage st nid) ty s (by rw [markBuildStage_buildStage, hstage]) hga
      htym (by rw [getData_markBuildStage_self]; exact hsnip)
      (by rw [getData_markBuildStage_self]; exact hflow))
  · exact e1.trans (buildFinish_generate_reentrant g fuel nid n out
      (markBuildStage st nid) ty (by rw [markBuildStage_buildStage, hstage]) hga
      htym (by rw [getData_markBuildStage_self]; exact hsnip)
      (by rw [getData_markBuildStage_self]; exact hgen))

/-- C3 witness: a later generate-stage build returns the memoized snippet
formatted to the requested output type, with no generate invocation. -/
theorem node_build_generate_memoization_witness :
    build gW 9 0 (BOut.otype "vec3") stMemo =
      some (BRes.rstr (formatB "P" (some "float") (BOut.otype "vec3")),
        { addNode (markBuildStage stMemo 0) nW with
          sequential := (addNode (markBuildStage stMemo 0) nW).sequential ++ [0] }) :=
  (node_build_generate_memoization gW 7 0 nW (BOut.otype "vec3") stMemo
    (some "float") (by decide) (Or.inl (by decide)) rfl (by decide)
    (by decide)).2.1 "P" (by decide) (by decide) (by decide)

theorem handlerEvents_cons_skip (x : Nat) (e : Ev) (tr : List Ev)
    (h : isHandlerFor x e = false) :
    handlerEvents x (e :: tr) = handlerEvents x tr := by
  simp [handlerEvents, List.filter_cons, h]

theorem Shadowed.mono {g : Graph} {st st2 : BuilderState} {x : Nat}
    (hle : RegistryLe st st2) (h : Shadowed g st x) : Shadowed g st2 x := by
  obtain ⟨xn, m, h1, h2, h3⟩ := h
  exact ⟨xn, m, h1, hle _ _ h2, h3⟩

theorem buildInv_of_eq {g : Graph} {st a : BuilderState}
    (h1 : a.hashNodes = st.hashNodes) (h2 : a.trace = st.trace) :
    BuildInv g st a :=
  ⟨fun k v h => by rw [getNodeFromHash, h1]; exact h, fun x _ => by rw [h2]⟩

theorem buildInv_rfl {g : Graph} {st : BuilderState} : BuildInv g st st :=
  buildInv_of_eq rfl rfl

theorem buildInv_trans {g : Graph} {st a b : BuilderState}
    (h1 : BuildInv g st a) (h2 : BuildInv g a b) : BuildInv g st b :=
  ⟨fun k v h => h2.1 k v (h1.1 k v h),
   fun x hx => (h2.2 x (hx.mono h1.1)).trans (h1.2 x hx)⟩

theorem finishInv_of_buildInv {g : Graph} {nid : Nat} {st a : BuilderState}
    (h : BuildInv g st a) : FinishInv g nid st a :=
  ⟨h.1, fun x _ hx => h.2 x hx⟩

theorem finishInv_trans_buildInv {g : Graph} {nid : Nat} {st a b : BuilderState}
    (h1 : FinishInv g nid st a) (h2 : BuildInv g a b) : FinishInv g nid st b :=
  ⟨fun k v h => h2.1 k v (h1.1 k v h),
   fun x hne hx => (h2.2 x (hx.mono h1.1)).trans (h1.2 x hne hx)⟩

theorem finishInv_trans {g : Graph} {nid : Nat} {st a b : BuilderState}
    (h1 : FinishInv g nid st a) (h2 : FinishInv g nid a b) : FinishInv g nid st b :=
  ⟨fun k v h => h2.1 k v (h1.1 k v h),
   fun x hne hx => (h2.2 x hne (hx.mono h1.1)).trans (h1.2 x hne hx)⟩

theorem buildInv_comp_finishInv {g : Graph} {nid : Nat} {st a b : BuilderState}
    (hne : ∀ x, Shadowed g st x → x ≠ nid)
    (h1 : BuildInv g st a) (h2 : FinishInv g nid a b) : BuildInv g st b :=
  ⟨fun k v h => h2.1 k v (h1.1 k v h),
   fun x hx => (h2.2 x (hne x hx) (hx.mono h1.1)).trans (h1.2 x hx)⟩

theorem buildInv_addNode {g : Graph} {st : BuilderState} {n : NodeDef} :
    BuildInv g st (addNode st n) :=
  ⟨fun k v h => getNodeFromHash_addNode_of_some st n k v h,
   fun x _ => by rw [addNode_trace]⟩

theorem finishInv_emit {g : Graph} {nid : Nat} {st : BuilderState} {e : Ev}
    (he : ∀ x, x ≠ nid → isHandlerFor x e = false) :
    FinishInv g nid st (emit st e) :=
  ⟨fun _ _ h => h, fun x hne _ => handlerEvents_cons_skip x e st.trace (he x hne)⟩

theorem buildInv_emit {g : Graph} {st : BuilderState} {e : Ev}
    (he : ∀ x, isHandlerFor x e = false) :
    BuildInv g st (emit st e) :=
  ⟨fun _ _ h => h, fun x _ => handlerEvents_cons_skip x e st.trace (he x)⟩

theorem genOnceImpl_hashNodes (st : BuilderState) (nid : Nat) (n : NodeDef) :
    (genOnceImpl st nid n).2.hashNodes = st.hashNodes := by
  unfold genOnceImpl propGenerate
  cases n.kind with
  | base => rfl
  | prop name vr =>
    cases alistGet nid st.vars with
    | none => rfl
    | some s => rfl

theorem genOnceImpl_trace (st : BuilderState) (nid : Nat) (n : NodeDef) :
    (genOnceImpl st nid n).2.trace = st.trace := by
  unfold genOnceImpl propGenerate
  cases n.kind with
  | base => rfl
  | prop name vr =>
    cases alistGet nid st.vars with
    | none => rfl
    | some s => rfl

theorem pushParent_hashNodes (st : BuilderState) (c p : Nat) :
    (pushParent st c p).hashNodes = st.hashNodes := rfl

theorem pushParent_trace (st : BuilderState) (c p : Nat) :
    (pushParent st c p).trace = st.trace := rfl

/-! ## The joint build invariant (used by the sharing claim C1) -/

set_option maxHeartbeats 1000000 in

/-- Joint invariant of the build recursion: a successful call grows the
shared-node registry monotonically (entries are never removed or
overwritten), and a node that is shadowed in the registry — its hash
mapped to a different node — never gains handler events; `buildFinish`
may add handler events only for the node it is finishing. -/
theorem build_invariant (g : Graph) : ∀ fuel : Nat,
    (∀ nid out st r st2, build g fuel nid out st = some (r, st2) → BuildInv g st st2) ∧
    (∀ nid n out st r st2, buildFinish g fuel nid n out st = some (r, st2) →
      FinishInv g nid st st2) ∧
    (∀ parent isS cs st st2, buildChildren g fuel parent isS cs st = some st2 →
      BuildInv g st st2) := by
  intro fuel
  induction fuel with
  | zero =>
    refine ⟨?_, ?_, ?_⟩ <;> intro _ <;> intros <;>
      simp [build, buildFinish, buildChildren] at *
  | succ f ih =>
    obtain ⟨ihB, ihF, ihC⟩ := ih
    refine ⟨?_, ?_, ?_⟩
    · -- build
      intro nid out st r st2 h
      rw [build] at h
      cases hfind : g.find nid with
      | none => rw [hfind] at h; simp at h
      | some n =>
        rw [hfind] at h
        simp only [markBuildStage_buildStage] at h
        by_cases hd : (getNodeFromHash st n.getHash).getD nid = nid
        · rw [if_neg (not_not_intro hd)] at h
          have hxne : ∀ x, Shadowed g st x → x ≠ nid := by
            rintro x ⟨xn, m, hfx, hrx, hmx⟩ heq
            subst heq
            rw [hfind] at hfx
            injection hfx with hxn
            subst hxn
            rw [hrx] at hd
            simp at hd
            exact hmx hd
          have iMark : BuildInv g st (markBuildStage st nid) := buildInv_of_eq rfl rfl
          split at h
          · rename_i ps hp
            split at h
            · have iF := ihF nid n out (markBuildStage st nid) r st2 h
              exact buildInv_comp_finishInv hxne iMark iF
            · split at h
              · simp at h
              · rename_i rA stA hb
                have i1 : BuildInv g st
                    { markBuildStage st nid with buildStage := ps } :=
                  buildInv_of_eq rfl rfl
                have i2 := ihB nid BOut.null
                  { markBuildStage st nid with buildStage := ps } rA stA hb
                have i3 : BuildInv g stA { stA with buildStage := st.buildStage } :=
                  buildInv_of_eq rfl rfl
                have i4 := ihF nid n out { stA with buildStage := st.buildStage } r st2 h
                exact buildInv_comp_finishInv hxne
                  (buildInv_trans (buildInv_trans i1 i2) i3) i4
          · have iF := ihF nid n out (markBuildStage st nid) r st2 h
            exact buildInv_comp_finishInv hxne iMark iF
        · rw [if_pos hd] at h
          exact ihB _ _ _ _ _ h
    · -- buildFinish
      intro nid n out st r st2 h
      rw [buildFinish] at h
      simp only [addNode_buildStage] at h
      split at h
      · -- work = none
        simp at h
      · -- work = some (a, b)
        rename_i a b heq
        simp only [Option.some.injEq, Prod.mk.injEq] at h
        obtain ⟨h1, h2⟩ := h
        subst h1
        subst h2
        split at heq
        · -- setup stage
          rename_i hs
          split at heq
          · -- initialized
            rename_i hinit
            simp only [Option.some.injEq, Prod.mk.injEq] at heq
            obtain ⟨e1, e2⟩ := heq
            subst e2
            refine ⟨fun k v hv => getNodeFromHash_addNode_of_some st n k v hv,
              fun x hne hx => ?_⟩
            simp only [addNode_trace]
          · -- uninitialized
            rename_i hinit
            split at heq
            · simp at heq
            · rename_i ste heq2
              simp only [Option.some.injEq, Prod.mk.injEq] at heq
              obtain ⟨e1, e2⟩ := heq
              subst e2
              refine finishInv_trans_buildInv
                (finishInv_trans ?_ (finishInv_of_buildInv (ihC _ _ _ _ _ heq2)))
                (buildInv_of_eq rfl rfl)
              refine ⟨fun k v hv => getNodeFromHash_addNode_of_some st n k v hv,
                fun x hne hx => ?_⟩
              simp only [setProps, emit, defaultSetup, addNode_trace]
              exact handlerEvents_cons_skip x _ _
                (by simp only [isHandlerFor, beq_eq_false_iff_ne, ne_eq]
                    exact Ne.symm hne)
        · -- analyze stage
          rename_i hs
          split at heq
          · -- usage = 1
            rename_i hu
            split at heq
            · simp at heq
            · rename_i stc heq2
              simp only [Option.some.injEq, Prod.mk.injEq] at heq
              obtain ⟨e1, e2⟩ := heq
              subst e2
              refine finishInv_trans_buildInv
                (finishInv_trans ?_ (finishInv_of_buildInv (ihC _ _ _ _ _ heq2)))
                (buildInv_of_eq rfl rfl)
              refine ⟨fun k v hv => ?_, fun x hne hx => ?_⟩
              · split
                · exact getNodeFromHash_addNode_of_some st n k v hv
                · exact getNodeFromHash_addNode_of_some st n k v hv
              · split
                · simp only [recordStageOutput, increaseUsage, setData, emit,
                    addNode_trace]
                  exact handlerEvents_cons_skip x _ _
                    (by simp only [isHandlerFor, beq_eq_false_iff_ne, ne_eq]
                        exact Ne.symm hne)
                · simp only [increaseUsage, setData, emit, addNode_trace]
                  exact handlerEvents_cons_skip x _ _
                    (by simp only [isHandlerFor, beq_eq_false_iff_ne, ne_eq]
                        exact Ne.symm hne)
          · -- usage > 1
            rename_i hu
            simp only [Option.some.injEq, Prod.mk.injEq] at heq
            obtain ⟨e1, e2⟩ := heq
            subst e2
            refine ⟨fun k v hv => ?_, fun x hne hx => ?_⟩
            · split
              · exact getNodeFromHash_addNode_of_some st n k v hv
              · exact getNodeFromHash_addNode_of_some st n k v hv
            · split
              · simp only [recordStageOutput, increaseUsage, setData, emit,
                  addNode_trace]
                exact handlerEvents_cons_skip x _ _
                  (by simp only [isHandlerFor, beq_eq_false_iff_ne, ne_eq]
                      exact Ne.symm hne)
              · simp only [increaseUsage, setData, emit, addNode_trace]
                exact handlerEvents_cons_skip x _ _
                  (by simp only [isHandlerFor, beq_eq_false_iff_ne, ne_eq]
                      exact Ne.symm hne)
        · -- generate stage
          rename_i hs
          split at heq
          · -- single parameter generate
            rename_i hga
            split at heq
            · simp at heq
            · rename_i ty hty
              split at heq
              · -- memoized snippet
                rename_i s hsnip
                simp only [Option.some.injEq, Prod.mk.injEq] at heq
                obtain ⟨e1, e2⟩ := heq
                subst e2
                refine ⟨fun k v hv => ?_, fun x hne hx => ?_⟩
                · split
                  · exact getNodeFromHash_addNode_of_some st n k v hv
                  · exact getNodeFromHash_addNode_of_some st n k v hv
                · split
                  · simp only [emit, addNode_trace]
                    exact handlerEvents_cons_skip x _ _ (by simp [isHandlerFor])
                  · simp only [addNode_trace]
              · -- no snippet yet
                rename_i hsnip
                split at heq
                · -- fresh generation
                  rename_i hgen
                  simp only [Option.some.injEq, Prod.mk.injEq] at heq
                  obtain ⟨e1, e2⟩ := heq
                  subst e2
                  refine ⟨fun k v hv => ?_, fun x hne hx => ?_⟩
                  · simpa [getNodeFromHash, setData, emit, genOnceImpl_hashNodes]
                      using getNodeFromHash_addNode_of_some st n k v hv
                  · simp only [setData, emit, genOnceImpl_trace, addNode_trace]
                    exact handlerEvents_cons_skip x _ _
                      (by simp only [isHandlerFor, beq_eq_false_iff_ne, ne_eq]
                          exact Ne.symm hne)
                · -- recursion detected
                  rename_i hgen
                  simp only [Option.some.injEq, Prod.mk.injEq] at heq
                  obtain ⟨e1, e2⟩ := heq
                  subst e2
                  refine ⟨fun k v hv => getNodeFromHash_addNode_of_some st n k v hv,
                    fun x hne hx => ?_⟩
                  simp only [emit, addNode_trace]
                  exact handlerEvents_cons_skip x _ _ (by simp [isHandlerFor])
          · -- two parameter generate
            rename_i hga
            split at heq
            · -- outputNode present
              rename_i o ho
              split at heq
              · simp at heq
              · rename_i rB stB hb
                simp only [Option.some.injEq, Prod.mk.injEq] at heq
                obtain ⟨e1, e2⟩ := heq
                subst e2
                refine finishInv_trans_buildInv
                  (finishInv_trans ?_ (finishInv_of_buildInv (ihB _ _ _ _ _ hb)))
                  (buildInv_of_eq rfl rfl)
                refine ⟨fun k v hv => getNodeFromHash_addNode_of_some st n k v hv,
                  fun x hne hx => ?_⟩
                simp only [emit, addNode_trace]
                exact handlerEvents_cons_skip x _ _
                  (by simp only [isHandlerFor, beq_eq_false_iff_ne, ne_eq]
                      exact Ne.symm hne)
            · -- no outputNode
              rename_i ho
              simp only [Option.some.injEq, Prod.mk.injEq] at heq
              obtain ⟨e1, e2⟩ := heq
              subst e2
              refine ⟨fun k v hv => getNodeFromHash_addNode_of_some st n k v hv,
                fun x hne hx => ?_⟩
              simp only [emit, addNode_trace]
              exact handlerEvents_cons_skip x _ _
                (by simp only [isHandlerFor, beq_eq_false_iff_ne, ne_eq]
                    exact Ne.symm hne)
    · -- buildChildren
      intro parent isS cs st st2 h
      cases cs with
      | nil =>
        rw [buildChildren] at h
        simp at h
        subst h
        exact buildInv_rfl
      | cons c rest =>
        rw [buildChildren] at h
        split at h
        · simp at h
        · rename_i rA stA hb
          refine buildInv_trans (buildInv_trans ?_ (ihB _ _ _ _ _ hb))
            (ihC _ _ _ _ _ h)
          split
          · split
            · split
              · exact buildInv_of_eq rfl rfl
              · exact buildInv_rfl
            · exact buildInv_rfl
          · exact buildInv_rfl

/-! ## Theorems: shared-node delegation (C1) -/

/-- C1: when the builder's shared-node registry maps a node's hash to a
different node `mid`, `build` delegates the whole call: the result is
exactly that of building `mid` in the same state (one fuel step is the
tail call), and no handler events for the delegating node are added by
the delegated call — its own `setup` / `analyze` / `generate` overrides
are never invoked. -/
theorem node_build_shared_delegation (g : Graph) (fuel nid mid : Nat) (out : BOut)
    (st : BuilderState) (n : NodeDef)
    (hfind : g.find nid = some n)
    (hreg : getNodeFromHash st n.getHash = some mid)
    (hne : mid ≠ nid) :
    build g (fuel + 1) nid out st = build g fuel mid out st ∧
    (∀ r st2, build g fuel mid out st = some (r, st2) →
      handlerEvents nid st2.trace = handlerEvents nid st.trace) := by
  constructor
  · rw [build]
    simp only [hfind, hreg, Option.getD_some]
    rw [if_pos hne]
  · intro r st2 h
    exact ((build_invariant g fuel).1 mid out st r st2 h).2 nid
      ⟨n, mid, hfind, hreg, hne⟩

/-- C1 witness: building node 0 delegates to node 1 and node 0 gains no
handler events from the delegated call. -/
theorem node_build_shared_delegation_witness :
    build gD 10 0 BOut.null stD = build gD 9 1 BOut.null stD ∧
    (build gD 9 1 BOut.null stD).elim True
      (fun p => handlerEvents 0 p.2.trace = handlerEvents 0 stD.trace) := by
  have ht := node_build_shared_delegation gD 9 0 1 BOut.null stD nD0
    (by decide) (by decide) (by decide)
  refine ⟨ht.1, ?_⟩
  cases hb : build gD 9 1 BOut.null stD with
  | none => simp [Option.elim]
  | some p =>
    have := ht.2 p.1 p.2 (by rw [hb])
    simpa [Option.elim] using this

end ThreeShader
